import Mathlib

/-!
Shallow embedding of `pulp_deb`'s Debian distributor
(`plugins/pulp_deb/plugins/distributors/distributor.py`), centred on
`MetadataStep.process_main` and `DebDistributor.distributor_removed`.

The filesystem is modelled as a set of existing paths (`List String`)
together with an ordered trace of the operations performed (`List FsOp`).
Python exceptions (`OSError` with `EEXIST`, `KeyError`, `RuntimeError`)
become an `Except PubErr` result; an error aborts the step with no
further operations recorded.
-/

namespace PulpDeb

/-- A binary package unit, shaped as `models.DebPackage` is used by the
distributor: identity fields, a filename and storage path, and the three
optional checksum fields that the metadata step backfills. -/
structure DebPackage where
  name : String
  version : String
  architecture : String
  filename : String
  storage_path : String
  checksumtype : String
  checksum : Option String
  sha1 : Option String
  sha256 : Option String
  md5sum : Option String
deriving DecidableEq

/-- A release unit (`models.DebRelease`): an optional codename and suite.
Python treats both `None` and the empty string as unset (falsy). -/
structure DebRelease where
  codename : Option String
  suite : Option String
deriving DecidableEq

/-- A component unit (`models.DebComponent`): a name (which may contain
`/`), the release it belongs to, and the ids of its packages. -/
structure DebComponent where
  name : String
  release : String
  packages : List String
deriving DecidableEq

/-- Result of `models.DebPackage.calculate_deb_checksums(storage_path)`:
the three digests computed from the artifact's bytes. -/
structure DebChecksums where
  sha1 : String
  sha256 : String
  md5sum : String
deriving DecidableEq

/-- Python truthiness of an optional string: `None` and `""` are falsy. -/
def strTruthy : Option String → Bool
  | none => false
  | some s => !s.isEmpty

/-- Release-file metadata accumulated per release (`release_meta_data`). -/
structure ReleaseMetaData where
  codename : Option String
  suite : Option String
  architectures : List String
  components : List String
  label : String
  description : Option String
deriving DecidableEq

/-- One observable filesystem operation performed by the publish step. -/
inductive FsOp where
  | mkdir (path : String)
  | makedirs (path : String)
  | symlink (target : String) (dest : String)
  | writePackagesFile (dir : String) (component : String) (packages : List DebPackage)
  | gzipCompress (path : String)
  | bz2Compress (path : String)
  | writeReleaseFile (dir : String) (meta : ReleaseMetaData) (files : List String)
  | signFile (path : String)
deriving DecidableEq

/-- Python exceptions that `process_main` can raise. -/
inductive PubErr where
  | osErrorExists (path : String)
  | keyError
  | runtimeError (msg : String)
deriving DecidableEq

/-- Filesystem model: the set of existing paths plus the operation trace. -/
structure PubState where
  fs : List String
  ops : List FsOp
deriving DecidableEq

def pathJoin (a b : String) : String := a ++ "/" ++ b

/-- Split a character list at every `/` (structural, so that it reduces
definitionally). -/
def splitSlash : List Char → List (List Char)
  | [] => [[]]
  | c :: rest =>
    match splitSlash rest with
    | [] => [[c]]
    | p :: ps => if c = '/' then [] :: p :: ps else (c :: p) :: ps

def joinParts : List String → String
  | [] => ""
  | [p] => p
  | p :: q :: rest => p ++ "/" ++ joinParts (q :: rest)

/-- All the directories `os.makedirs p` brings into existence: every
prefix of `p` at a `/` boundary, `p` itself included. -/
def pathPrefixes (p : String) : List String :=
  let parts := (splitSlash p.data).map (fun cs => String.mk cs)
  (List.range parts.length).map (fun i => joinParts (parts.take (i + 1)))

def fsInsert (fs : List String) (p : String) : List String :=
  if p ∈ fs then fs else p :: fs

/-- Model of `os.mkdir`: raises `OSError` (`EEXIST`) if the path already exists. -/
def osMkdir (p : String) (st : PubState) : Except PubErr PubState :=
  if p ∈ st.fs then .error (.osErrorExists p)
  else .ok ⟨p :: st.fs, st.ops ++ [.mkdir p]⟩

/-- Model of `os.makedirs`: recursive creation; raises if the leaf already exists. -/
def osMakedirs (p : String) (st : PubState) : Except PubErr PubState :=
  if p ∈ st.fs then .error (.osErrorExists p)
  else .ok ⟨(pathPrefixes p).foldl fsInsert st.fs, st.ops ++ [.makedirs p]⟩

/-- Model of `os.symlink(target, dest)` (callers guard on `dest` not existing). -/
def osSymlink (target dest : String) (st : PubState) : PubState :=
  ⟨dest :: st.fs, st.ops ++ [.symlink target dest]⟩

/-! ### Checksum repair (distributor.py lines 293-299)

The loop body: `checksums = calculate_deb_checksums(package.storage_path)`
followed by assignment of all three fields.  The digest computation itself
reads the artifact's bytes; it is abstracted as an oracle from storage
path to digests. -/

def repairPackage (calculate_deb_checksums : String → DebChecksums)
    (package : DebPackage) : DebPackage :=
  let checksums := calculate_deb_checksums package.storage_path
  { package with
      sha1 := some checksums.sha1
      sha256 := some checksums.sha256
      md5sum := some checksums.md5sum }

/-- The loop `for package in unit_dict.itervalues(): ...` — runs for every package,
with no test of the existing checksum fields. -/
def checksumRepair (calculate_deb_checksums : String → DebChecksums)
    (unit_dict : List (String × DebPackage)) : List (String × DebPackage) :=
  unit_dict.map (fun kv => (kv.1, repairPackage calculate_deb_checksums kv.2))

/-! ### Default release/component synthesis (lines 305-325) -/

/-- Lines 305-325: if there are no release units, append a release with
suite `stable` and a component `main` holding every package id; if
configured, additionally append the `default`/`all` pair. -/
def synthDefaults (unit_dict : List (String × DebPackage))
    (release_units : List DebRelease) (comp_units : List DebComponent)
    (publish_default_release : Bool) :
    List DebRelease × List DebComponent :=
  let (release_units, comp_units) :=
    if release_units.length = 0 then
      (release_units ++ [{ codename := none, suite := some "stable" }],
       comp_units ++ [{ name := "main", release := "stable",
                        packages := unit_dict.map Prod.fst }])
    else (release_units, comp_units)
  if publish_default_release then
    (release_units ++ [{ codename := some "default", suite := some "default" }],
     comp_units ++ [{ name := "all", release := "default",
                      packages := unit_dict.map Prod.fst }])
  else (release_units, comp_units)

/-! ### Pool layout (lines 327-343) -/

/-- Inner loop of the pool phase: `package = unit_dict[package_id]` (a
`KeyError` if the id is unknown), then a symlink at
`pool/<component>/<filename>` unless the destination already exists. -/
def linkPackages (unit_dict : List (String × DebPackage)) (component_path : String) :
    List String → PubState → Except PubErr PubState
  | [], st => .ok st
  | package_id :: rest, st =>
    match unit_dict.lookup package_id with
    | none => .error .keyError
    | some package =>
      let destination_path := pathJoin component_path package.filename
      let st' := if destination_path ∈ st.fs then st
                 else osSymlink package.storage_path destination_path st
      linkPackages unit_dict component_path rest st'

/-- One component of the pool loop: a guarded `os.makedirs` for
`pool/<component.name>` (skipped when it exists), then the symlinks. -/
def linkComponent (unit_dict : List (String × DebPackage)) (pool_path : String)
    (component : DebComponent) (st : PubState) : Except PubErr PubState := do
  let component_path := pathJoin pool_path component.name
  let st ← if component_path ∈ st.fs then .ok st else osMakedirs component_path st
  linkPackages unit_dict component_path component.packages st

def linkComponents (unit_dict : List (String × DebPackage)) (pool_path : String) :
    List DebComponent → PubState → Except PubErr PubState
  | [], st => .ok st
  | component :: rest, st => do
    let st ← linkComponent unit_dict pool_path component st
    linkComponents unit_dict pool_path rest st

/-- Lines 327-343: `os.mkdir(pool_path)` (unguarded), then the per-component
directory and symlink creation. -/
def poolPhase (unit_dict : List (String × DebPackage)) (comp_units : List DebComponent)
    (base_path : String) (st : PubState) : Except PubErr PubState := do
  let st ← osMkdir (pathJoin base_path "pool") st
  linkComponents unit_dict (pathJoin base_path "pool") comp_units st

/-! ### Architecture bucketing (lines 378-394) -/

/-- Append a package to the bucket of its architecture
(`arch_units[arch].append(package)` on a `defaultdict(list)`),
preserving first-insertion bucket order. -/
def addToBucket : List (String × List DebPackage) → String → DebPackage →
    List (String × List DebPackage)
  | [], arch, p => [(arch, [p])]
  | (a, ps) :: rest, arch, p =>
    if a = arch then (a, ps ++ [p]) :: rest
    else (a, ps) :: addToBucket rest arch p

/-- Lines 382-386: group the component's resolvable package ids
(`unit_dict.get(package_id)`, misses skipped) by architecture. -/
def groupByArch (unit_dict : List (String × DebPackage)) (package_ids : List String) :
    List (String × List DebPackage) :=
  package_ids.foldl (fun buckets package_id =>
    match unit_dict.lookup package_id with
    | some package => addToBucket buckets package.architecture package
    | none => buckets) []

/-- Lines 390-394: `all_units = arch_units.pop('all', [])`; every other
bucket is extended with the `all` units; the `all` key is then re-added
(unconditionally, even when `all_units` is empty). -/
def fanOut (arch_units : List (String × List DebPackage)) :
    List (String × List DebPackage) :=
  let all_units := (arch_units.lookup "all").getD []
  ((arch_units.filter (fun b => b.1 ≠ "all")).map
    (fun b => (b.1, b.2 ++ all_units))) ++ [("all", all_units)]

/-! ### Index-file writers (module `metadata_files`, not in the sources) -/

/-- Modelled from the spec: `write_packages_file` (from the
`metadata_files` module, which is not among the sources) serializes one
architecture bucket into `<dir>/Packages` and returns that path (§4.5). -/
def write_packages_file (dir component_name : String) (packages : List DebPackage)
    (st : PubState) : String × PubState :=
  (pathJoin dir "Packages",
   ⟨fsInsert st.fs (pathJoin dir "Packages"),
    st.ops ++ [.writePackagesFile dir component_name packages]⟩)

/-- Modelled from the spec: `gzip_compress_file` (module `metadata_files`,
not in the sources) produces the compressed sibling `<path>.gz` and
returns its path (§4.5). -/
def gzip_compress_file (path : String) (st : PubState) : String × PubState :=
  (path ++ ".gz", ⟨fsInsert st.fs (path ++ ".gz"), st.ops ++ [.gzipCompress path]⟩)

/-- Modelled from the spec: `bz2_compress_file` (module `metadata_files`,
not in the sources) produces `<path>.bz2` and returns its path (§4.5). -/
def bz2_compress_file (path : String) (st : PubState) : String × PubState :=
  (path ++ ".bz2", ⟨fsInsert st.fs (path ++ ".bz2"), st.ops ++ [.bz2Compress path]⟩)

/-- Modelled from the spec: `write_release_file` (module `metadata_files`,
not in the sources) writes `<dir>/Release` from the accumulated metadata
and generated-file list and returns its path (§4.6). -/
def write_release_file (dir : String) (meta : ReleaseMetaData) (files : List String)
    (st : PubState) : String × PubState :=
  (pathJoin dir "Release",
   ⟨fsInsert st.fs (pathJoin dir "Release"),
    st.ops ++ [.writeReleaseFile dir meta files]⟩)

def signFile (path : String) (st : PubState) : PubState :=
  ⟨st.fs, st.ops ++ [.signFile path]⟩

/-! ### Per-release dists assembly (lines 349-426) -/

/-- Per-release accumulator: the filesystem state plus
`release_meta_data['architectures']`, `release_meta_data['components']`
(Python sets, modelled insertion-ordered) and `release_meta_files`. -/
structure ReleaseAcc where
  st : PubState
  architectures : List String
  components : List String
  metaFiles : List String
deriving DecidableEq

/-- Python `set.add`: insert unless present. -/
def setAdd (s : List String) (x : String) : List String :=
  if x ∈ s then s else s ++ [x]

/-- Lines 397-413: one `binary-<arch>` folder — record the architecture,
`os.mkdir` the folder, write the `Packages` file and its two compressed
siblings, recording all three paths. -/
def processArch (component_path component_name : String) :
    String × List DebPackage → ReleaseAcc → Except PubErr ReleaseAcc
  | (arch, packages), acc => do
    let architectures := setAdd acc.architectures arch
    let arch_path := pathJoin component_path ("binary-" ++ arch)
    let st ← osMkdir arch_path acc.st
    let (packages_file_path, st) := write_packages_file arch_path component_name packages st
    let (gz_file_path, st) := gzip_compress_file packages_file_path st
    let (bz2_file_path, st) := bz2_compress_file packages_file_path st
    .ok ⟨st, architectures, acc.components,
         acc.metaFiles ++ [packages_file_path, gz_file_path, bz2_file_path]⟩

def archLoop (component_path component_name : String) :
    List (String × List DebPackage) → ReleaseAcc → Except PubErr ReleaseAcc
  | [], acc => .ok acc
  | bucket :: rest, acc => do
    let acc ← processArch component_path component_name bucket acc
    archLoop component_path component_name rest acc

/-- Lines 370-413: a component of the current release — record its name,
`os.makedirs` its directory (unguarded here), bucket its packages by
architecture, fan out `all`, and emit every bucket. -/
def processReleaseComponent (unit_dict : List (String × DebPackage))
    (release_path release_name : String) (component : DebComponent)
    (acc : ReleaseAcc) : Except PubErr ReleaseAcc :=
  if component.release = release_name then do
    let components := setAdd acc.components component.name
    let component_path := pathJoin release_path component.name
    let st ← osMakedirs component_path acc.st
    let arch_units := fanOut (groupByArch unit_dict component.packages)
    archLoop component_path component.name arch_units
      ⟨st, acc.architectures, components, acc.metaFiles⟩
  else .ok acc

def componentLoop (unit_dict : List (String × DebPackage))
    (release_path release_name : String) :
    List DebComponent → ReleaseAcc → Except PubErr ReleaseAcc
  | [], acc => .ok acc
  | component :: rest, acc => do
    let acc ← processReleaseComponent unit_dict release_path release_name component acc
    componentLoop unit_dict release_path release_name rest acc

/-- Lines 356-364: the on-disk directory name of a release — the codename
when truthy, else the suite when truthy, else nothing. -/
def releaseDirName (release : DebRelease) : Option String :=
  if strTruthy release.codename then release.codename
  else if strTruthy release.suite then release.suite
  else none

/-- Lines 350-426: process one release — fail with `RuntimeError` when it
has no name, `os.mkdir` its directory, run every component of the
release, then `release_meta_data['architectures'].remove('all')` (a
`KeyError` when `all` is absent) and write (and optionally sign) the
`Release` file. -/
def processRelease (unit_dict : List (String × DebPackage))
    (comp_units : List DebComponent) (repo_id : String)
    (repo_description : Option String) (signer : Bool) (dists_path : String)
    (release : DebRelease) (st : PubState) : Except PubErr PubState :=
  match releaseDirName release with
  | none => .error (.runtimeError "Neither codename nor suite is set!")
  | some release_name => do
    let release_path := pathJoin dists_path release_name
    let st ← osMkdir release_path st
    let acc ← componentLoop unit_dict release_path release_name comp_units ⟨st, [], [], []⟩
    if "all" ∈ acc.architectures then
      let meta : ReleaseMetaData :=
        { codename := if strTruthy release.codename then release.codename else none
          suite := if strTruthy release.suite then release.suite else none
          architectures := acc.architectures.erase "all"
          components := acc.components
          label := repo_id
          description := if strTruthy repo_description then repo_description else none }
      let (release_file_path, st') := write_release_file release_path meta acc.metaFiles acc.st
      .ok (if signer then signFile release_file_path st' else st')
    else .error .keyError

def releaseLoop (unit_dict : List (String × DebPackage))
    (comp_units : List DebComponent) (repo_id : String)
    (repo_description : Option String) (signer : Bool) (dists_path : String) :
    List DebRelease → PubState → Except PubErr PubState
  | [], st => .ok st
  | release :: rest, st => do
    let st ← processRelease unit_dict comp_units repo_id repo_description signer
      dists_path release st
    releaseLoop unit_dict comp_units repo_id repo_description signer dists_path rest st

/-- Model of `MetadataStep.process_main` (lines 285-426): checksum repair, the
empty-repository early return, default synthesis, the pool layout, the
`dists` folder and the per-release assembly. -/
def MetadataStep.process_main (calculate_deb_checksums : String → DebChecksums)
    (unit_dict : List (String × DebPackage)) (release_units : List DebRelease)
    (comp_units : List DebComponent) (publish_default_release : Bool)
    (repo_id : String) (repo_description : Option String) (signer : Bool)
    (base_path : String) (fs : List String) : Except PubErr PubState :=
  let unit_dict := checksumRepair calculate_deb_checksums unit_dict
  if unit_dict.length = 0 then .ok ⟨fs, []⟩
  else
    let (release_units, comp_units) :=
      synthDefaults unit_dict release_units comp_units publish_default_release
    do
      let st ← poolPhase unit_dict comp_units base_path ⟨fs, []⟩
      let st ← osMkdir (pathJoin base_path "dists") st
      releaseLoop unit_dict comp_units repo_id repo_description signer
        (pathJoin base_path "dists") release_units st

/-! ### `DebDistributor.distributor_removed` (lines 115-134) -/

def ENOENT : Nat := 2

/-- Python `rel_path.rstrip(os.sep)`. -/
def rstripSep (s : String) : String :=
  String.mk (s.data.reverse.dropWhile (fun c => c = '/')).reverse

/-- One iteration of the unlink loop: `os.unlink(symlink)` guarded by
`except OSError: if error.errno != errno.ENOENT: raise`.  The oracle
gives `os.unlink`'s outcome per path (`none` = success, `some e` =
`OSError` with errno `e`). -/
def unlinkServedLink (unlink_result : String → Option Nat) (symlink : String) :
    Except Nat Unit :=
  match unlink_result symlink with
  | none => .ok ()
  | some e => if e = ENOENT then .ok () else .error e

/-- The two served symlinks the loop visits, in order: one per publish
root, at `<pub_dir>/<rel_path rstripped of trailing separators>`. -/
def removedSymlinks (http_dir https_dir rel_path : String) : List String :=
  [pathJoin http_dir (rstripSep rel_path), pathJoin https_dir (rstripSep rel_path)]

/-- Lines 115-134: `shutil.rmtree(repo_dir, ignore_errors=True)` (its
outcome, the `rmtree_result` oracle, is discarded), then unlink of each
served symlink with only `ENOENT` tolerated. -/
def distributor_removed (rmtree_result : Option Nat)
    (unlink_result : String → Option Nat) (http_dir https_dir rel_path : String) :
    Except Nat Unit :=
  let _ := rmtree_result
  match unlinkServedLink unlink_result (pathJoin http_dir (rstripSep rel_path)) with
  | .error e => .error e
  | .ok _ => unlinkServedLink unlink_result (pathJoin https_dir (rstripSep rel_path))

/-! ### Result projections and sample inputs used by concrete runs -/

/-- The operation trace of a run, empty when the run raised. -/
def opsOf : Except PubErr PubState → List FsOp
  | .ok st => st.ops
  | .error _ => []

/-- Returns `true` iff the run finished without raising. -/
def isOkRun : Except PubErr PubState → Bool
  | .ok _ => true
  | .error _ => false

/-- The architecture sets recorded in the written `Release` files of a run. -/
def releaseFileArchSets (r : Except PubErr PubState) : List (List String) :=
  (opsOf r).filterMap (fun op => match op with
    | .writeReleaseFile _ meta _ => some meta.architectures
    | _ => none)

/-- A fixed digest oracle for concrete runs. -/
def sampleDigests : String → DebChecksums :=
  fun _ => { sha1 := "s1", sha256 := "s2", md5sum := "m5" }

def mkPkg (nm arch fn sp : String) : DebPackage :=
  { name := nm, version := "1.0", architecture := arch, filename := fn,
    storage_path := sp, checksumtype := "sha256", checksum := some "c0",
    sha1 := none, sha256 := none, md5sum := none }

def samplePkgA : DebPackage := mkPkg "nscd" "amd64" "a.deb" "/store/a.deb"

def samplePkgAll : DebPackage := mkPkg "doc" "all" "b.deb" "/store/b.deb"

/-- A package record that already carries all three digests. -/
def pkgAllChecksums : DebPackage :=
  { name := "nscd", version := "1.0", architecture := "amd64", filename := "a.deb",
    storage_path := "/store/a.deb", checksumtype := "sha256", checksum := some "c0",
    sha1 := some "oldsha1", sha256 := some "oldsha256", md5sum := some "oldmd5" }

/-- A run on a concrete repository whose single component has one `amd64`
package and no `all` package. -/
def c2Run : Except PubErr PubState :=
  MetadataStep.process_main sampleDigests [("q1", samplePkgA)]
    [{ codename := none, suite := some "stable" }]
    [{ name := "main", release := "stable", packages := ["q1"] }]
    false "repo" none false "/w" []

/-- The accumulator produced by one concrete `binary-amd64` bucket emission. -/
def processArchAcc : ReleaseAcc :=
  match processArch "/d/main" "main" ("amd64", [samplePkgA]) ⟨⟨[], []⟩, [], [], []⟩ with
  | .ok acc => acc
  | .error _ => ⟨⟨[], []⟩, [], [], []⟩

def sampleComp : DebComponent :=
  { name := "main", release := "stable", packages := ["q1"] }

/-- The state left by one successful pool run on the sample repository
(the dummy empty state when the run failed). -/
def poolSt1 : PubState :=
  match poolPhase [("q1", samplePkgA)] [sampleComp] "/w" ⟨[], []⟩ with
  | .ok st => st
  | .error _ => ⟨[], []⟩

/-- The state left by one successful release processing of a release
named `stable` with one matching (empty) component. -/
def c8RunSt : PubState :=
  match processRelease [] [{ name := "main", release := "stable", packages := [] }]
      "repo" none false "/w/dists" ⟨none, some "stable"⟩ ⟨[], []⟩ with
  | .ok st => st
  | .error _ => ⟨[], []⟩

end PulpDeb

deriving instance DecidableEq for Except

namespace PulpDeb

/-! ## Theorems -/

@[simp] theorem exceptBind_ok {ε α β : Type} (a : α) (f : α → Except ε β) :
    (Except.ok a >>= f) = f a := rfl

@[simp] theorem exceptBind_error {ε α β : Type} (e : ε) (f : α → Except ε β) :
    ((Except.error e : Except ε α) >>= f) = .error e := rfl

/-- C6: with an empty package set, `process_main` returns without error,
leaves the filesystem untouched and performs no operation at all — no
`pool/` or `dists/` directory, no symlink and no index file — whatever
release and component records were supplied. -/
theorem c6_empty_repository_short_circuit
    (calculate_deb_checksums : String → DebChecksums)
    (release_units : List DebRelease) (comp_units : List DebComponent)
    (publish_default_release : Bool) (repo_id : String)
    (repo_description : Option String) (signer : Bool) (base_path : String)
    (fs : List String) :
    MetadataStep.process_main calculate_deb_checksums [] release_units comp_units
      publish_default_release repo_id repo_description signer base_path fs =
      .ok ⟨fs, []⟩ := rfl

/-- C3, counterexample: a package record already carrying all three
digests does not keep its prior values — the repair pass overwrites them
with freshly computed ones. -/
theorem c3_checksum_repair_cex :
    pkgAllChecksums.sha1 = some "oldsha1" ∧
    pkgAllChecksums.sha256 = some "oldsha256" ∧
    pkgAllChecksums.md5sum = some "oldmd5" ∧
    (checksumRepair (fun _ => ⟨"newsha1", "newsha256", "newmd5"⟩)
        [("p", pkgAllChecksums)]).map (fun kv => kv.2.sha1) = [some "newsha1"] :=
  ⟨rfl, rfl, rfl, rfl⟩

/-- C3, amended: the checksum-repair pass reads the artifact and writes
the three computed digests onto every package record unconditionally,
records that already carry all three digests included. -/
theorem c3_checksum_repair_unconditional
    (calculate_deb_checksums : String → DebChecksums)
    (unit_dict : List (String × DebPackage)) :
    checksumRepair calculate_deb_checksums unit_dict =
      unit_dict.map (fun kv => (kv.1,
        { kv.2 with
            sha1 := some (calculate_deb_checksums kv.2.storage_path).sha1
            sha256 := some (calculate_deb_checksums kv.2.storage_path).sha256
            md5sum := some (calculate_deb_checksums kv.2.storage_path).md5sum })) := rfl

/-- C5: with a non-empty package set and no supplied releases (and the
default-release flag off), synthesis yields exactly one release — suite
`stable`, no codename — and appends exactly one component, named `main`
with release `stable` and the full list of known package ids; nothing
else is added, and (when no supplied component was already named `main`)
exactly one component named `main` results. -/
theorem c5_default_synthesis (unit_dict : List (String × DebPackage))
    (comp_units : List DebComponent) (_hud : unit_dict ≠ [])
    (hmain : ∀ c ∈ comp_units, c.name ≠ "main") :
    synthDefaults unit_dict [] comp_units false =
      ([{ codename := none, suite := some "stable" }],
       comp_units ++ [{ name := "main", release := "stable",
                        packages := unit_dict.map Prod.fst }]) ∧
    ((synthDefaults unit_dict [] comp_units false).2.filter
      (fun c => c.name == "main")).length = 1 := by
  refine ⟨rfl, ?_⟩
  have h1 : (synthDefaults unit_dict [] comp_units false).2 =
      comp_units ++ [{ name := "main", release := "stable",
                       packages := unit_dict.map Prod.fst }] := rfl
  rw [h1, List.filter_append]
  have h2 : comp_units.filter (fun c => c.name == "main") = [] := by
    rw [List.filter_eq_nil_iff]
    intro c hc
    simpa using hmain c hc
  rw [h2]
  rfl

/-- C5, witness at a concrete input. -/
theorem c5_default_synthesis_witness :
    synthDefaults [("p", samplePkgA)] [] [] false =
      ([{ codename := none, suite := some "stable" }],
       [] ++ [{ name := "main", release := "stable",
                packages := [("p", samplePkgA)].map Prod.fst }]) ∧
    ((synthDefaults [("p", samplePkgA)] [] [] false).2.filter
      (fun c => c.name == "main")).length = 1 :=
  c5_default_synthesis [("p", samplePkgA)] [] (by decide) (by decide)

/-- C1: for a component holding exactly one `amd64` package and one `all`
package, the bucketing of `process_main` puts both packages in the
`amd64` bucket and only the `all` package in the `all` bucket, and the
`Release` metadata written after processing the release records the
architecture set `{amd64}` — `all` is removed before the `Release` file
is written. -/
theorem c1_fanout_correctness (p1 p2 : DebPackage)
    (h1 : p1.architecture = "amd64") (h2 : p2.architecture = "all") :
    fanOut (groupByArch [("id1", p1), ("id2", p2)] ["id1", "id2"]) =
      [("amd64", [p1, p2]), ("all", [p2])] ∧
    releaseFileArchSets (processRelease [("id1", p1), ("id2", p2)]
      [{ name := "main", release := "stable", packages := ["id1", "id2"] }]
      "repo" none false "/w/dists" { codename := none, suite := some "stable" }
      ⟨[], []⟩) = [["amd64"]] := by
  cases p1 with
  | mk n1 v1 a1 f1 sp1 ct1 c1 s1a s1b m1 =>
    cases p2 with
    | mk n2 v2 a2 f2 sp2 ct2 c2 s2a s2b m2 =>
      have ha1 : a1 = "amd64" := h1
      have ha2 : a2 = "all" := h2
      subst ha1
      subst ha2
      exact ⟨rfl, rfl⟩

/-- C1, witness at concrete packages. -/
theorem c1_fanout_correctness_witness :
    fanOut (groupByArch [("id1", samplePkgA), ("id2", samplePkgAll)] ["id1", "id2"]) =
      [("amd64", [samplePkgA, samplePkgAll]), ("all", [samplePkgAll])] ∧
    releaseFileArchSets (processRelease [("id1", samplePkgA), ("id2", samplePkgAll)]
      [{ name := "main", release := "stable", packages := ["id1", "id2"] }]
      "repo" none false "/w/dists" { codename := none, suite := some "stable" }
      ⟨[], []⟩) = [["amd64"]] :=
  c1_fanout_correctness samplePkgA samplePkgAll rfl rfl

/-- C7: a release whose codename and suite are both unset (absent or
empty) makes its processing fail at once with the
`Neither codename nor suite is set!` `RuntimeError` — before its
directory or any index file is created (the error result carries no
operations) — and the release loop propagates that error rather than
swallowing it. -/
theorem c7_unnamed_release_fatal (unit_dict : List (String × DebPackage))
    (comp_units : List DebComponent) (repo_id : String)
    (repo_description : Option String) (signer : Bool) (dists_path : String)
    (release : DebRelease) (st : PubState) (rest : List DebRelease)
    (h1 : strTruthy release.codename = false) (h2 : strTruthy release.suite = false) :
    processRelease unit_dict comp_units repo_id repo_description signer dists_path
      release st = .error (.runtimeError "Neither codename nor suite is set!") ∧
    releaseLoop unit_dict comp_units repo_id repo_description signer dists_path
      (release :: rest) st =
      .error (.runtimeError "Neither codename nor suite is set!") := by
  have hname : releaseDirName release = none := by
    unfold releaseDirName
    rw [h1, h2]
    rfl
  constructor
  · unfold processRelease
    rw [hname]
  · unfold releaseLoop processRelease
    rw [hname]
    rfl

/-- C7, witness: an empty-string suite counts as unset. -/
theorem c7_unnamed_release_fatal_witness :
    processRelease [] [] "repo" none false "/w/dists" ⟨none, some ""⟩ ⟨[], []⟩ =
      .error (.runtimeError "Neither codename nor suite is set!") ∧
    releaseLoop [] [] "repo" none false "/w/dists" [⟨none, some ""⟩] ⟨[], []⟩ =
      .error (.runtimeError "Neither codename nor suite is set!") :=
  c7_unnamed_release_fatal [] [] "repo" none false "/w/dists" ⟨none, some ""⟩
    ⟨[], []⟩ [] rfl rfl

/-- Components none of which belong to the release are all skipped,
leaving the accumulator unchanged. -/
theorem componentLoop_skip (unit_dict : List (String × DebPackage))
    (release_path release_name : String) (comps : List DebComponent)
    (acc : ReleaseAcc) (h : ∀ c ∈ comps, c.release ≠ release_name) :
    componentLoop unit_dict release_path release_name comps acc = .ok acc := by
  induction comps with
  | nil => rfl
  | cons c cs ih =>
    have hc : c.release ≠ release_name := h c (by simp)
    simp only [componentLoop, processReleaseComponent, if_neg hc]
    exact ih (fun d hd => h d (by simp [hd]))

/-- C9: processing a release that has an on-disk name but no component
whose `release` field matches it raises a `KeyError` (the removal of
`all` from the empty recorded architecture set) instead of writing a
`Release` file with empty component and architecture lists. -/
theorem c9_release_without_components (unit_dict : List (String × DebPackage))
    (comp_units : List DebComponent) (repo_id : String)
    (repo_description : Option String) (signer : Bool) (dists_path : String)
    (release : DebRelease) (st : PubState) (release_name : String)
    (hname : releaseDirName release = some release_name)
    (hfresh : pathJoin dists_path release_name ∉ st.fs)
    (hcomps : ∀ c ∈ comp_units, c.release ≠ release_name) :
    processRelease unit_dict comp_units repo_id repo_description signer dists_path
      release st = .error .keyError := by
  unfold processRelease
  rw [hname]
  show ((osMkdir (pathJoin dists_path release_name) st).bind _) = _
  rw [osMkdir, if_neg hfresh]
  show ((componentLoop _ _ _ comp_units _).bind _) = _
  rw [componentLoop_skip _ _ _ _ _ hcomps]
  rfl

/-- C9, witness: one release, one non-matching component. -/
theorem c9_release_without_components_witness :
    processRelease [("q1", samplePkgA)]
      [{ name := "main", release := "testing", packages := ["q1"] }]
      "repo" none false "/w/dists"
      ⟨none, some "stable"⟩ ⟨[], []⟩ = .error .keyError :=
  c9_release_without_components [("q1", samplePkgA)]
    [{ name := "main", release := "testing", packages := ["q1"] }]
    "repo" none false "/w/dists" ⟨none, some "stable"⟩ ⟨[], []⟩ "stable"
    rfl (by decide) (by decide)

/-- An `addToBucket` call never produces an empty bucket. -/
theorem addToBucket_nonempty (buckets : List (String × List DebPackage))
    (arch : String) (p : DebPackage) (h : ∀ b ∈ buckets, b.2 ≠ []) :
    ∀ b ∈ addToBucket buckets arch p, b.2 ≠ [] := by
  induction buckets with
  | nil =>
    intro b hb
    simp only [addToBucket, List.mem_singleton] at hb
    subst hb
    simp
  | cons hd tl ih =>
    obtain ⟨a, ps⟩ := hd
    intro b hb
    simp only [addToBucket] at hb
    by_cases ha : a = arch
    · rw [if_pos ha] at hb
      rcases List.mem_cons.1 hb with h1 | h2
      · subst h1
        simp
      · exact h b (List.mem_cons_of_mem _ h2)
    · rw [if_neg ha] at hb
      rcases List.mem_cons.1 hb with h1 | h2
      · exact h b (h1 ▸ List.mem_cons_self _ _)
      · exact ih (fun x hx => h x (List.mem_cons_of_mem _ hx)) b h2

/-- Every bucket produced by the architecture grouping holds at least one
package. -/
theorem groupByArch_go_nonempty (unit_dict : List (String × DebPackage)) :
    ∀ (package_ids : List String) (init : List (String × List DebPackage)),
      (∀ b ∈ init, b.2 ≠ []) →
      ∀ b ∈ package_ids.foldl (fun buckets package_id =>
          match unit_dict.lookup package_id with
          | some package => addToBucket buckets package.architecture package
          | none => buckets) init, b.2 ≠ []
  | [], init, h => by simpa using h
  | pid :: rest, init, h => by
    rw [List.foldl_cons]
    apply groupByArch_go_nonempty unit_dict rest
    cases hl : unit_dict.lookup pid with
    | none => simpa [hl] using h
    | some pkg =>
      simp only [hl]
      exact addToBucket_nonempty _ _ _ h

theorem groupByArch_nonempty (unit_dict : List (String × DebPackage))
    (package_ids : List String) :
    ∀ b ∈ groupByArch unit_dict package_ids, b.2 ≠ [] :=
  groupByArch_go_nonempty unit_dict package_ids [] (by simp)

/-- After the fan-out, every bucket of a real architecture is non-empty. -/
theorem fanOut_real_nonempty (unit_dict : List (String × DebPackage))
    (package_ids : List String) (arch : String) (ps : List DebPackage)
    (hmem : (arch, ps) ∈ fanOut (groupByArch unit_dict package_ids))
    (hne : arch ≠ "all") : ps ≠ [] := by
  unfold fanOut at hmem
  rcases List.mem_append.1 hmem with h1 | h2
  · rcases List.mem_map.1 h1 with ⟨b, hb, heq⟩
    have hbne : b.2 ≠ [] :=
      groupByArch_nonempty unit_dict package_ids b (List.mem_of_mem_filter hb)
    have hps : ps = b.2 ++ ((groupByArch unit_dict package_ids).lookup "all").getD [] := by
      have := congrArg Prod.snd heq
      simpa using this.symm
    rw [hps]
    simp [hbne]
  · simp only [List.mem_singleton, Prod.mk.injEq] at h2
    exact absurd h2.1 hne

/-- The `all` bucket is re-added unconditionally. -/
theorem fanOut_all_mem (arch_units : List (String × List DebPackage)) :
    ("all", (arch_units.lookup "all").getD []) ∈ fanOut arch_units :=
  List.mem_append_right _ (List.mem_singleton_self _)

/-- The exact operations appended by one `binary-<arch>` bucket emission:
a directory creation, the `Packages` write, and the two compressions —
performed for every bucket, its package list empty or not. -/
theorem processArch_ops_eq (component_path component_name arch : String)
    (packages : List DebPackage) (acc acc' : ReleaseAcc)
    (h : processArch component_path component_name (arch, packages) acc = .ok acc') :
    acc'.st.ops = acc.st.ops ++
      [.mkdir (pathJoin component_path ("binary-" ++ arch)),
       .writePackagesFile (pathJoin component_path ("binary-" ++ arch))
         component_name packages,
       .gzipCompress (pathJoin (pathJoin component_path ("binary-" ++ arch)) "Packages"),
       .bz2Compress (pathJoin (pathJoin component_path ("binary-" ++ arch)) "Packages")] := by
  by_cases hm : pathJoin component_path ("binary-" ++ arch) ∈ acc.st.fs
  · simp [processArch, osMkdir, hm] at h
  · simp only [processArch, osMkdir, if_neg hm, write_packages_file,
      gzip_compress_file, bz2_compress_file, exceptBind_ok, exceptBind_error,
      bind, Except.bind, Except.ok.injEq] at h
    rw [← h]
    simp

/-- C2, counterexample: in `c2Run` no package has architecture `all`, yet
a `binary-all` directory is created and an empty `Packages` bucket is
written into it. -/
theorem c2_empty_binary_all_cex :
    [("q1", samplePkgA)].map (fun kv => kv.2.architecture) = ["amd64"] ∧
    FsOp.mkdir "/w/dists/stable/main/binary-all" ∈ opsOf c2Run ∧
    FsOp.writePackagesFile "/w/dists/stable/main/binary-all" "main" [] ∈ opsOf c2Run := by
  decide

/-- C2, amended: no `binary-<arch>` directory of a *real* architecture is
ever created over an empty bucket — every real-architecture bucket after
the fan-out holds at least one package — but the `all` bucket is kept
unconditionally and each bucket, the empty `all` bucket included, gets
its own directory, `Packages` file and compressed copies. -/
theorem c2_no_empty_real_arch_dirs :
    (∀ (unit_dict : List (String × DebPackage)) (package_ids : List String)
        (arch : String) (ps : List DebPackage),
        (arch, ps) ∈ fanOut (groupByArch unit_dict package_ids) →
        arch ≠ "all" → ps ≠ []) ∧
    (∀ (unit_dict : List (String × DebPackage)) (package_ids : List String),
        ("all", ((groupByArch unit_dict package_ids).lookup "all").getD []) ∈
          fanOut (groupByArch unit_dict package_ids)) ∧
    (∀ (component_path component_name arch : String) (packages : List DebPackage)
        (acc acc' : ReleaseAcc),
        processArch component_path component_name (arch, packages) acc = .ok acc' →
        acc'.st.ops = acc.st.ops ++
          [.mkdir (pathJoin component_path ("binary-" ++ arch)),
           .writePackagesFile (pathJoin component_path ("binary-" ++ arch))
             component_name packages,
           .gzipCompress (pathJoin (pathJoin component_path ("binary-" ++ arch))
             "Packages"),
           .bz2Compress (pathJoin (pathJoin component_path ("binary-" ++ arch))
             "Packages")]) :=
  ⟨fanOut_real_nonempty, fun ud pids => fanOut_all_mem (groupByArch ud pids),
   processArch_ops_eq⟩

/-- C2, witness for the amended statement at concrete inputs. -/
theorem c2_no_empty_real_arch_dirs_witness :
    ([samplePkgA] : List DebPackage) ≠ [] ∧
    ("all", ([] : List DebPackage)) ∈
      fanOut (groupByArch [("q1", samplePkgA)] ["q1"]) ∧
    (processArchAcc.st.ops = [] ++
      [.mkdir "/d/main/binary-amd64",
       .writePackagesFile "/d/main/binary-amd64" "main" [samplePkgA],
       .gzipCompress "/d/main/binary-amd64/Packages",
       .bz2Compress "/d/main/binary-amd64/Packages"]) :=
  ⟨c2_no_empty_real_arch_dirs.1 [("q1", samplePkgA)] ["q1"] "amd64" [samplePkgA]
      (by decide) (by decide),
   c2_no_empty_real_arch_dirs.2.1 [("q1", samplePkgA)] ["q1"],
   c2_no_empty_real_arch_dirs.2.2 "/d/main" "main" "amd64" [samplePkgA]
      ⟨⟨[], []⟩, [], [], []⟩ processArchAcc (by decide)⟩

theorem fsInsert_mono (fs : List String) (p x : String) (h : x ∈ fs) :
    x ∈ fsInsert fs p := by
  unfold fsInsert
  split
  · exact h
  · exact List.mem_cons_of_mem _ h

theorem foldl_fsInsert_mono (l : List String) (fs : List String) (x : String)
    (h : x ∈ fs) : x ∈ l.foldl fsInsert fs := by
  induction l generalizing fs with
  | nil => exact h
  | cons hd tl ih => exact ih _ (fsInsert_mono _ _ _ h)

/-- The pool symlink loop only grows the filesystem. -/
theorem linkPackages_fs_mono (unit_dict : List (String × DebPackage))
    (component_path : String) (pids : List String) (st st' : PubState)
    (h : linkPackages unit_dict component_path pids st = .ok st')
    (x : String) (hx : x ∈ st.fs) : x ∈ st'.fs := by
  induction pids generalizing st with
  | nil =>
    unfold linkPackages at h
    cases h
    exact hx
  | cons pid rest ih =>
    unfold linkPackages at h
    cases hl : unit_dict.lookup pid with
    | none =>
      rw [hl] at h
      cases h
    | some package =>
      rw [hl] at h
      dsimp only [] at h
      by_cases hd : pathJoin component_path package.filename ∈ st.fs
      · rw [if_pos hd] at h
        exact ih _ h hx
      · rw [if_neg hd] at h
        exact ih _ h (List.mem_cons_of_mem _ hx)

/-- One pool component only grows the filesystem. -/
theorem linkComponent_fs_mono (unit_dict : List (String × DebPackage))
    (pool_path : String) (component : DebComponent) (st st' : PubState)
    (h : linkComponent unit_dict pool_path component st = .ok st')
    (x : String) (hx : x ∈ st.fs) : x ∈ st'.fs := by
  unfold linkComponent at h
  by_cases hc : pathJoin pool_path component.name ∈ st.fs
  · rw [if_pos hc] at h
    simp only [exceptBind_ok] at h
    exact linkPackages_fs_mono _ _ _ _ _ h x hx
  · rw [if_neg hc] at h
    simp only [osMakedirs, if_neg hc, exceptBind_ok] at h
    exact linkPackages_fs_mono _ _ _ _ _ h x (foldl_fsInsert_mono _ _ _ hx)

/-- The pool component loop only grows the filesystem. -/
theorem linkComponents_fs_mono (unit_dict : List (String × DebPackage))
    (pool_path : String) (comps : List DebComponent) (st st' : PubState)
    (h : linkComponents unit_dict pool_path comps st = .ok st')
    (x : String) (hx : x ∈ st.fs) : x ∈ st'.fs := by
  induction comps generalizing st with
  | nil =>
    unfold linkComponents at h
    cases h
    exact hx
  | cons c cs ih =>
    unfold linkComponents at h
    cases hc : linkComponent unit_dict pool_path c st with
    | error e =>
      rw [hc] at h
      cases h
    | ok st₂ =>
      rw [hc] at h
      simp only [exceptBind_ok] at h
      exact ih _ h (linkComponent_fs_mono _ _ _ _ _ hc x hx)

/-- C4, counterexample: one successful pool run, then the same pool-layout
phase run again against the resulting working directory raises `OSError`
(`EEXIST`) at the `pool/` creation instead of succeeding idempotently. -/
theorem c4_pool_not_idempotent_cex :
    isOkRun (poolPhase [("q1", samplePkgA)] [sampleComp] "/w" ⟨[], []⟩) = true ∧
    poolPhase [("q1", samplePkgA)] [sampleComp] "/w" ⟨poolSt1.fs, []⟩ =
      .error (.osErrorExists "/w/pool") := by decide

/-- C4, amended: the per-component directory creation and per-package
symlink creation are guarded and idempotent, but the `pool/` creation is
a bare `os.mkdir`, so re-running the pool-layout phase over the file set
left by a successful run always raises `OSError` (`EEXIST`) on `pool/`
and creates nothing. -/
theorem c4_pool_rerun_raises (unit_dict : List (String × DebPackage))
    (comp_units : List DebComponent) (base_path : String) (st st₁ : PubState)
    (h : poolPhase unit_dict comp_units base_path st = .ok st₁) :
    poolPhase unit_dict comp_units base_path ⟨st₁.fs, []⟩ =
      .error (.osErrorExists (pathJoin base_path "pool")) := by
  unfold poolPhase at h ⊢
  by_cases hp : pathJoin base_path "pool" ∈ st.fs
  · simp [osMkdir, hp] at h
  · simp only [osMkdir, if_neg hp, exceptBind_ok] at h
    have hmem : pathJoin base_path "pool" ∈ st₁.fs :=
      linkComponents_fs_mono _ _ _ _ _ h _ (List.mem_cons_self _ _)
    simp [osMkdir, hmem]

/-- C4, witness for the amended statement: the concrete rerun raises. -/
theorem c4_pool_rerun_raises_witness :
    poolPhase [("q1", samplePkgA)] [sampleComp] "/w" ⟨poolSt1.fs, []⟩ =
      .error (.osErrorExists (pathJoin "/w" "pool")) :=
  c4_pool_rerun_raises [("q1", samplePkgA)] [sampleComp] "/w" ⟨[], []⟩ poolSt1
    (by decide)

/-- The arch loop only appends operations. -/
theorem archLoop_ops_suffix (component_path component_name : String)
    (buckets : List (String × List DebPackage)) (acc acc' : ReleaseAcc)
    (h : archLoop component_path component_name buckets acc = .ok acc') :
    ∃ t, acc'.st.ops = acc.st.ops ++ t := by
  induction buckets generalizing acc with
  | nil =>
    unfold archLoop at h
    cases h
    exact ⟨[], by simp⟩
  | cons b rest ih =>
    obtain ⟨arch, packages⟩ := b
    unfold archLoop at h
    cases hb : processArch component_path component_name (arch, packages) acc with
    | error e =>
      rw [hb] at h
      cases h
    | ok acc₂ =>
      rw [hb] at h
      simp only [exceptBind_ok] at h
      obtain ⟨t2, ht2⟩ := ih _ h
      refine ⟨[FsOp.mkdir (pathJoin component_path ("binary-" ++ arch)),
               FsOp.writePackagesFile (pathJoin component_path ("binary-" ++ arch))
                 component_name packages,
               FsOp.gzipCompress
                 (pathJoin (pathJoin component_path ("binary-" ++ arch)) "Packages"),
               FsOp.bz2Compress
                 (pathJoin (pathJoin component_path ("binary-" ++ arch)) "Packages")]
               ++ t2, ?_⟩
      rw [ht2, processArch_ops_eq _ _ _ _ _ _ hb, List.append_assoc]

/-- One dists component only appends operations. -/
theorem processReleaseComponent_ops_suffix (unit_dict : List (String × DebPackage))
    (release_path release_name : String) (component : DebComponent)
    (acc acc' : ReleaseAcc)
    (h : processReleaseComponent unit_dict release_path release_name component acc =
      .ok acc') :
    ∃ t, acc'.st.ops = acc.st.ops ++ t := by
  unfold processReleaseComponent at h
  by_cases hr : component.release = release_name
  · rw [if_pos hr] at h
    dsimp only [] at h
    by_cases hm : pathJoin release_path component.name ∈ acc.st.fs
    · simp [osMakedirs, hm] at h
    · simp only [osMakedirs, if_neg hm, exceptBind_ok] at h
      obtain ⟨t, ht⟩ := archLoop_ops_suffix _ _ _ _ _ h
      refine ⟨[FsOp.makedirs (pathJoin release_path component.name)] ++ t, ?_⟩
      rw [ht]
      simp
  · rw [if_neg hr] at h
    cases h
    exact ⟨[], by simp⟩

/-- The dists component loop only appends operations. -/
theorem componentLoop_ops_suffix (unit_dict : List (String × DebPackage))
    (release_path release_name : String) (comps : List DebComponent)
    (acc acc' : ReleaseAcc)
    (h : componentLoop unit_dict release_path release_name comps acc = .ok acc') :
    ∃ t, acc'.st.ops = acc.st.ops ++ t := by
  induction comps generalizing acc with
  | nil =>
    unfold componentLoop at h
    cases h
    exact ⟨[], by simp⟩
  | cons c cs ih =>
    unfold componentLoop at h
    cases hc : processReleaseComponent unit_dict release_path release_name c acc with
    | error e =>
      rw [hc] at h
      cases h
    | ok acc₂ =>
      rw [hc] at h
      simp only [exceptBind_ok] at h
      obtain ⟨t1, ht1⟩ := processReleaseComponent_ops_suffix _ _ _ _ _ _ hc
      obtain ⟨t2, ht2⟩ := ih _ h
      exact ⟨t1 ++ t2, by rw [ht2, ht1, List.append_assoc]⟩

/-- C8: the on-disk directory of a release is named by its codename when
one is set, else by its suite; and on a successful run the directory
`dists/<name>` is indeed created under that name. -/
theorem c8_release_dir_naming (release : DebRelease) :
    (strTruthy release.codename = true → releaseDirName release = release.codename) ∧
    (strTruthy release.codename = false → strTruthy release.suite = true →
      releaseDirName release = release.suite) ∧
    (∀ (unit_dict : List (String × DebPackage)) (comp_units : List DebComponent)
       (repo_id : String) (repo_description : Option String) (signer : Bool)
       (dists_path : String) (st st' : PubState) (release_name : String),
       releaseDirName release = some release_name →
       processRelease unit_dict comp_units repo_id repo_description signer dists_path
         release st = .ok st' →
       FsOp.mkdir (pathJoin dists_path release_name) ∈ st'.ops) := by
  refine ⟨?_, ?_, ?_⟩
  · intro h
    simp [releaseDirName, h]
  · intro h1 h2
    simp [releaseDirName, h1, h2]
  · intro unit_dict comp_units repo_id repo_description signer dists_path st st'
      release_name hn h
    unfold processRelease at h
    rw [hn] at h
    dsimp only [] at h
    by_cases hm : pathJoin dists_path release_name ∈ st.fs
    · simp [osMkdir, hm] at h
    · simp only [osMkdir, if_neg hm, exceptBind_ok] at h
      cases hcl : componentLoop unit_dict (pathJoin dists_path release_name)
          release_name comp_units
          ⟨⟨pathJoin dists_path release_name :: st.fs,
            st.ops ++ [.mkdir (pathJoin dists_path release_name)]⟩, [], [], []⟩ with
      | error e =>
        rw [hcl] at h
        cases h
      | ok acc =>
        rw [hcl] at h
        simp only [exceptBind_ok] at h
        obtain ⟨t, ht⟩ := componentLoop_ops_suffix _ _ _ _ _ _ hcl
        have hmem : FsOp.mkdir (pathJoin dists_path release_name) ∈ acc.st.ops := by
          rw [ht]
          exact List.mem_append_left _
            (List.mem_append_right _ (List.mem_singleton_self _))
        by_cases ha : "all" ∈ acc.architectures
        · rw [if_pos ha] at h
          dsimp only [write_release_file] at h
          cases signer with
          | false =>
            simp only [Bool.false_eq_true, if_false, Except.ok.injEq] at h
            rw [← h]
            exact List.mem_append_left _ hmem
          | true =>
            simp only [if_true, signFile, Except.ok.injEq] at h
            rw [← h]
            exact List.mem_append_left _ (List.mem_append_left _ hmem)
        · rw [if_neg ha] at h
          cases h

/-- C8, witness: concrete releases with and without codename, and the
concrete directory creation on a successful run. -/
theorem c8_release_dir_naming_witness :
    releaseDirName ⟨some "bullseye", some "oldstable"⟩ = some "bullseye" ∧
    releaseDirName ⟨none, some "stable"⟩ = some "stable" ∧
    FsOp.mkdir (pathJoin "/w/dists" "stable") ∈ c8RunSt.ops :=
  ⟨(c8_release_dir_naming ⟨some "bullseye", some "oldstable"⟩).1 rfl,
   (c8_release_dir_naming ⟨none, some "stable"⟩).2.1 rfl rfl,
   (c8_release_dir_naming ⟨none, some "stable"⟩).2.2 []
     [{ name := "main", release := "stable", packages := [] }]
     "repo" none false "/w/dists" ⟨[], []⟩ c8RunSt "stable" rfl (by decide)⟩

/-- C10: `distributor_removed` is tolerant of already-clean state — the
master publish directory removal ignores every error (its outcome never
influences the result), a missing served symlink (`ENOENT`) does not
raise, and any other `OSError` errno from the unlink propagates. -/
theorem c10_distributor_removed_tolerant (rm rm' : Option Nat)
    (unlink_result : String → Option Nat) (http_dir https_dir rel_path : String) :
    (distributor_removed rm unlink_result http_dir https_dir rel_path =
      distributor_removed rm' unlink_result http_dir https_dir rel_path) ∧
    ((∀ p ∈ removedSymlinks http_dir https_dir rel_path,
        unlink_result p = none ∨ unlink_result p = some ENOENT) →
      distributor_removed rm unlink_result http_dir https_dir rel_path = .ok ()) ∧
    (∀ e, e ≠ ENOENT →
      unlink_result (pathJoin http_dir (rstripSep rel_path)) = some e →
      distributor_removed rm unlink_result http_dir https_dir rel_path = .error e) ∧
    (∀ e, e ≠ ENOENT →
      (unlink_result (pathJoin http_dir (rstripSep rel_path)) = none ∨
       unlink_result (pathJoin http_dir (rstripSep rel_path)) = some ENOENT) →
      unlink_result (pathJoin https_dir (rstripSep rel_path)) = some e →
      distributor_removed rm unlink_result http_dir https_dir rel_path = .error e) := by
  refine ⟨rfl, ?_, ?_, ?_⟩
  · intro h
    have h1 := h _ (List.mem_cons_self _ _)
    have h2 := h _ (List.mem_cons_of_mem _ (List.mem_singleton_self _))
    unfold distributor_removed unlinkServedLink
    rcases h1 with h1 | h1 <;> rcases h2 with h2 | h2 <;> rw [h1, h2] <;> simp [ENOENT]
  · intro e he hu
    unfold distributor_removed unlinkServedLink
    rw [hu]
    dsimp only []
    rw [if_neg he]
  · intro e he hfirst hu
    unfold distributor_removed unlinkServedLink
    rcases hfirst with h1 | h1
    · rw [h1, hu]
      dsimp only []
      rw [if_neg he]
    · rw [h1, hu]
      dsimp only []
      rw [if_pos rfl, if_neg he]

/-- C10, witness: a trailing-separator relative path, a swallowed
`ENOENT` pair, and a propagated errno 13 from the second unlink. -/
theorem c10_distributor_removed_tolerant_witness :
    distributor_removed (some 1) (fun _ => some ENOENT) "/http" "/https" "repo/" =
      .ok () ∧
    distributor_removed none
      (fun p => if p = "/https/repo" then some 13 else none)
      "/http" "/https" "repo/" = .error 13 :=
  ⟨(c10_distributor_removed_tolerant (some 1) none (fun _ => some ENOENT)
      "/http" "/https" "repo/").2.1 (by decide),
   (c10_distributor_removed_tolerant none (some 7)
      (fun p => if p = "/https/repo" then some 13 else none)
      "/http" "/https" "repo/").2.2.2 13 (by decide) (by decide) (by decide)⟩

end PulpDeb
